import Mathlib

/-!
Verification of the AIS GPS-jam zero-crossing detector (`process_ais.py`).

The Python program scans a data frame of ADS-B rows (`df.itertuples()`),
keeps one bounded `collections.deque` of recent rows per aircraft hex code,
flushes a buffer on temporal gaps, and on a full buffer compares the mean
NIC (navigation-integrity) value of the first and second halves to detect a
loss or recovery of GPS signal.  On detection it records the midpoint row of
the buffer and empties the buffer of that aircraft.  A second pure function
derives a radio-horizon radius from an altitude.

Modelling conventions:
* machine floats of the NIC/threshold arithmetic are embedded as `ℚ`
  (the detection logic only adds, divides by 6 and compares);
* timestamps are `Option ℚ` (seconds): `none` stands for a value on which
  `(current - last).total_seconds()` raises (unparseable/missing time),
  which the outer `try/except` of the row loop catches;
* NIC values are `Option ℚ`: `none` stands for a non-numeric cell on which
  `sum(...)` inside `detect_loss_or_recovery` raises `TypeError`, which the
  inner `try/except` of the crossing block catches;
* altitudes model `str(alt).isdigit()`: `AltVal.ground` is any non-numeric
  sentinel (e.g. the string "ground"), `AltVal.num n` an integer cell, and
  `isdigit` succeeds exactly on the non-negative integers;
* the dictionary `flight_dict` is a function `String → Option (List Row)`;
* Python exceptions are embedded as `Option`/flag results whose failure
  branch reproduces exactly the state the `except` handler leaves behind.
-/

namespace ProcessAis

/-- Constant `BUFFER_SIZE = 12` (line 13 of the source). -/
def BUFFER_SIZE : Nat := 12

/-- Constant `MAX_SAMPLE_DELTA_SECONDS = 120` (line 14). -/
def MAX_SAMPLE_DELTA_SECONDS : ℚ := 120

/-- Constant `MIN_ALT_FEET = 10000` (line 15). -/
def MIN_ALT_FEET : ℤ := 10000

/-- Constant `GPS_THRESHOLD_LOW = .3` (line 16). -/
def GPS_THRESHOLD_LOW : ℚ := 0.3

/-- Constant `GPS_THRESHOLD_HIGH = 8` (line 17). -/
def GPS_THRESHOLD_HIGH : ℚ := 8

/-- The `alt_baro` column: either a non-numeric ground sentinel or an
integer number of feet. -/
inductive AltVal where
  | ground : AltVal
  | num : ℤ → AltVal
deriving DecidableEq

/-- Model of `str(altitude).isdigit()`: true exactly for non-negative integer cells
(the decimal string of a negative integer contains `-` and is not a digit
string; the ground sentinel is not numeric). -/
def altIsDigit : AltVal → Bool
  | .ground => false
  | .num n => decide (0 ≤ n)

/-- Model of `int(altitude)`.  Only ever evaluated by the program after
`altIsDigit` succeeded (the Python `or` short-circuits), so the `ground`
default is unreachable there. -/
def altToInt : AltVal → ℤ
  | .ground => 0
  | .num n => n

/-- The admission filter of line 80:
`if not str(altitude).isdigit() or int(altitude) < MIN_ALT_FEET: continue`. -/
def shouldSkip (a : AltVal) : Bool :=
  !(altIsDigit a) || decide (altToInt a < MIN_ALT_FEET)

/-- One row of the input table, as seen by `df.itertuples()`. -/
structure Row where
  hex : String
  alt_baro : AltVal
  timestamp_u : Option ℚ
  nic : Option ℚ
  lat : ℚ
  lon : ℚ
  index : Nat
deriving DecidableEq

/-- Default row used as the (unreachable) fallback of a checked index. -/
def dRow : Row :=
  { hex := "", alt_baro := .ground, timestamp_u := none, nic := none,
    lat := 0, lon := 0, index := 0 }

/-- The crossing record built at lines 102-109 of the source. -/
structure ZeroCrossing where
  hex_code : String
  alt_baro : ℤ
  row_index : Nat
  lat : ℚ
  lon : ℚ
  nics : List (Option ℚ)
deriving DecidableEq

/-- Type of `flight_dict`: hex code → buffer of rows (deque, oldest first). -/
def FlightDict : Type := String → Option (List Row)

/-- The dictionary before any row is processed (line 71). -/
def emptyDict : FlightDict := fun _ => none

/-- Assignment `flight_dict[h] = b`. -/
def updateDict (fd : FlightDict) (h : String) (b : List Row) : FlightDict :=
  fun k => if k = h then some b else fd k

/-- Read a buffer out of the dictionary (the program only reads keys it
has inserted, so the `[]` default is never the value it acts on). -/
def getBuf (fd : FlightDict) (h : String) : List Row :=
  (fd h).getD []

/-- Model of `collections.deque(maxlen=BUFFER_SIZE).append`: appending to a full
deque drops the oldest (leftmost) element. -/
def dequeAppend (buf : List Row) (r : Row) : List Row :=
  if buf.length = BUFFER_SIZE then buf.tail ++ [r] else buf ++ [r]

/-- Function `validate_sample_interval` (lines 42-47).  `none` models the
`TypeError` raised by the timestamp subtraction when either timestamp is
unparseable; otherwise `some` of the boolean the Python function returns. -/
def validate_sample_interval (dequeue_list : List Row) (current_timestamp : Option ℚ) :
    Option Bool :=
  match dequeue_list.getLast? with
  | none => some true
  | some last_sample =>
    match current_timestamp, last_sample.timestamp_u with
    | some c, some l => some (decide (c - l < MAX_SAMPLE_DELTA_SECONDS))
    | _, _ => none

/-- Sum of a list of NIC cells, as the Python `sum` builtin: raises (`none`) as soon
as a non-numeric (`none`) cell is hit. -/
def sumOpt : List (Option ℚ) → Option ℚ
  | [] => some 0
  | none :: _ => none
  | some v :: xs => (sumOpt xs).map (fun s => v + s)

/-- Function `detect_loss_or_recovery` (lines 49-61), on the list of NIC cells of
the buffer.  `none` models the `TypeError` of `sum` on a malformed cell,
caught by the inner `try/except`. -/
def detect_loss_or_recovery (nics : List (Option ℚ)) : Option Bool :=
  let prior_window := nics.take (BUFFER_SIZE / 2)
  let later_window := nics.drop (BUFFER_SIZE / 2)
  match sumOpt prior_window, sumOpt later_window with
  | some ps, some ls =>
    let prior_window_avg := ps / (prior_window.length : ℚ)
    let later_window_avg := ls / (later_window.length : ℚ)
    let recovery_of_gps : Bool :=
      decide (prior_window_avg < GPS_THRESHOLD_LOW) &&
        decide (GPS_THRESHOLD_HIGH ≤ later_window_avg)
    let loss_of_gps : Bool :=
      decide (GPS_THRESHOLD_HIGH ≤ prior_window_avg) &&
        decide (later_window_avg < GPS_THRESHOLD_LOW)
    some (recovery_of_gps || loss_of_gps)
  | _, _ => none

/-- Function `get_nics_from_buffer` (lines 67-68). -/
def get_nics_from_buffer (buffer : List Row) : List (Option ℚ) :=
  buffer.map (fun elem => elem.nic)

/-- The `zero_crossing` dict literal of lines 100-109: the representative
record is the buffer element at index `BUFFER_SIZE/2` (in bounds whenever
the buffer is full). -/
def build_zero_crossing (buf : List Row) : ZeroCrossing :=
  let zero_cross_record := buf.getD (BUFFER_SIZE / 2) dRow
  { hex_code := zero_cross_record.hex
    alt_baro := altToInt zero_cross_record.alt_baro
    row_index := zero_cross_record.index
    lat := zero_cross_record.lat
    lon := zero_cross_record.lon
    nics := get_nics_from_buffer buf }

/-- Lines 83-92: lazy dict initialisation, gap check, flush and append.
The `Bool` is `false` when the gap check raised (outer `except`): the
returned dictionary is then exactly the state the handler leaves. -/
def insert_record (fd : FlightDict) (r : Row) : FlightDict × Bool :=
  let fd1 := if (fd r.hex).isSome then fd else updateDict fd r.hex []
  match validate_sample_interval (getBuf fd1 r.hex) r.timestamp_u with
  | none => (fd1, false)
  | some ok =>
    let fd2 := if ok then fd1 else updateDict fd1 r.hex []
    (updateDict fd2 r.hex (dequeAppend (getBuf fd2 r.hex) r), true)

/-- Lines 95-117: when the buffer for `hx` is full, run detection; on a
crossing, emit the event and reset the buffer; when the inner block raises
(`detect_loss_or_recovery` = `none`) the handler swallows the exception
and the dictionary is left untouched (the flush at line 114 is *not*
reached). -/
def checkCrossing (fd : FlightDict) (hx : String) : FlightDict × List ZeroCrossing :=
  let buf := getBuf fd hx
  if buf.length = BUFFER_SIZE then
    match detect_loss_or_recovery (get_nics_from_buffer buf) with
    | none => (fd, [])
    | some true => (updateDict fd hx [], [build_zero_crossing buf])
    | some false => (fd, [])
  else (fd, [])

/-- One iteration of the row loop (lines 74-120): admission filter, insert
with gap check, then crossing check.  Returns the new dictionary and the
events appended to `zero_crossings` by this row. -/
def stepRow (fd : FlightDict) (r : Row) : FlightDict × List ZeroCrossing :=
  if shouldSkip r.alt_baro then (fd, [])
  else
    let p := insert_record fd r
    if p.2 then checkCrossing p.1 r.hex else (p.1, [])

/-- The whole row loop, threading the dictionary and accumulating events. -/
def processRows : List Row → FlightDict → List ZeroCrossing →
    FlightDict × List ZeroCrossing
  | [], fd, acc => (fd, acc)
  | r :: rs, fd, acc =>
    let s := stepRow fd r
    processRows rs s.1 (acc ++ s.2)

/-- Function `get_zero_crossings` (lines 28-125): the list of crossings found over
the input rows, in order. -/
def get_zero_crossings (rows : List Row) : List ZeroCrossing :=
  (processRows rows emptyDict []).2

/-- The per-identifier buffer state at the end of a run. -/
def finalDict (rows : List Row) : FlightDict :=
  (processRows rows emptyDict []).1

/-- Constant `RADIUS_EARTH = 6371000` (line 132). -/
def RADIUS_EARTH : ℝ := 6371000

/-- Constant `FEET_TO_METERS = 0.3048` (line 133). -/
def FEET_TO_METERS : ℝ := 0.3048

/-- Function `horizontal_range` (lines 128-135): altitude in feet to metres, then
`sqrt(2*R*h + h^2)`. -/
noncomputable def horizontal_range (height : ℝ) : ℝ :=
  let h := height * FEET_TO_METERS
  Real.sqrt (2 * RADIUS_EARTH * h + h ^ 2)

/-! Spec-side definitions, written from the words of the specification, to be
compared with the code above: the halves split by arrival order, their
arithmetic means, and the Recovery/Loss classification. -/

/-- Arithmetic mean integrity of `prior = elements[0 : N/2]`. -/
def specPriorMean (ns : List ℚ) : ℚ :=
  (ns.take (BUFFER_SIZE / 2)).sum / ((BUFFER_SIZE : ℚ) / 2)

/-- Arithmetic mean integrity of `later = elements[N/2 : N]`. -/
def specLaterMean (ns : List ℚ) : ℚ :=
  (ns.drop (BUFFER_SIZE / 2)).sum / ((BUFFER_SIZE : ℚ) / 2)

/-- Recovery: prior mean < GPS_THRESHOLD_LOW and later mean ≥ GPS_THRESHOLD_HIGH. -/
def specRecovery (ns : List ℚ) : Prop :=
  specPriorMean ns < GPS_THRESHOLD_LOW ∧ GPS_THRESHOLD_HIGH ≤ specLaterMean ns

/-- Loss: prior mean ≥ GPS_THRESHOLD_HIGH and later mean < GPS_THRESHOLD_LOW. -/
def specLoss (ns : List ℚ) : Prop :=
  GPS_THRESHOLD_HIGH ≤ specPriorMean ns ∧ specLaterMean ns < GPS_THRESHOLD_LOW

/-- A predicate holding of every live per-identifier buffer of a
dictionary. -/
def bufPred (P : List Row → Prop) (fd : FlightDict) : Prop :=
  ∀ hx buf, fd hx = some buf → P buf

/-- Temporal contiguity of two consecutively inserted samples: both have a
well-defined timestamp and the elapsed time from the earlier-inserted to
the later-inserted one is strictly below `MAX_SAMPLE_DELTA_SECONDS` (this
is the quantity `(current - last).total_seconds()` the gap check bounds). -/
def contiguous (a b : Row) : Prop :=
  ∃ ta tb, a.timestamp_u = some ta ∧ b.timestamp_u = some tb ∧
    tb - ta < MAX_SAMPLE_DELTA_SECONDS

/-! Concrete input data used to exercise the theorems on closed runs. -/

/-- An admissible row of aircraft `"A"` at 20000 ft. -/
def wrow (i : Nat) (t q : ℚ) : Row :=
  { hex := "A", alt_baro := .num 20000, timestamp_u := some t, nic := some q,
    lat := 54, lon := 20, index := i }

/-- Twelve rows, 10 s apart: six NIC `0.1` samples then six NIC `9` samples
(the end-to-end Recovery example of the spec, at `BUFFER_SIZE = 12`). -/
def wrows : List Row :=
  [wrow 0 0 0.1, wrow 1 10 0.1, wrow 2 20 0.1, wrow 3 30 0.1, wrow 4 40 0.1,
   wrow 5 50 0.1, wrow 6 60 9, wrow 7 70 9, wrow 8 80 9, wrow 9 90 9,
   wrow 10 100 9, wrow 11 110 9]

/-- The first eleven of `wrows`: the buffer just before the crossing. -/
def wbuf11 : List Row :=
  [wrow 0 0 0.1, wrow 1 10 0.1, wrow 2 20 0.1, wrow 3 30 0.1, wrow 4 40 0.1,
   wrow 5 50 0.1, wrow 6 60 9, wrow 7 70 9, wrow 8 80 9, wrow 9 90 9,
   wrow 10 100 9]

/-- Dictionary holding the eleven-row buffer for `"A"`. -/
def wfd11 : FlightDict := updateDict emptyDict "A" wbuf11

/-- Dictionary holding the full twelve-row buffer for `"A"`. -/
def wfdFull : FlightDict := updateDict emptyDict "A" wrows

/-- The Recovery event the run over `wrows` emits: the midpoint row
(index 6) with the twelve NIC values. -/
def wev : ZeroCrossing :=
  { hex_code := "A", alt_baro := 20000, row_index := 6, lat := 54, lon := 20,
    nics := [some 0.1, some 0.1, some 0.1, some 0.1, some 0.1, some 0.1,
             some 9, some 9, some 9, some 9, some 9, some 9] }

/-- A first sample at time 0. -/
def c4r1 : Row := wrow 0 0 5

/-- A second sample exactly `MAX_SAMPLE_DELTA_SECONDS` later. -/
def c4r2 : Row := wrow 1 120 5

/-- Dictionary holding the buffer `[c4r1]` for `"A"`. -/
def c4fd : FlightDict := updateDict emptyDict "A" [c4r1]

/-- Thirteen non-crossing rows (constant NIC 5), 10 s apart. -/
def c4slide : List Row :=
  [wrow 0 0 5, wrow 1 10 5, wrow 2 20 5, wrow 3 30 5, wrow 4 40 5,
   wrow 5 50 5, wrow 6 60 5, wrow 7 70 5, wrow 8 80 5, wrow 9 90 5,
   wrow 10 100 5, wrow 11 110 5, wrow 12 120 5]

/-- A row of aircraft `"B"`; the first one carries a malformed NIC cell. -/
def c7row (i : Nat) (t : ℚ) (q : Option ℚ) : Row :=
  { hex := "B", alt_baro := .num 20000, timestamp_u := some t, nic := q,
    lat := 0, lon := 0, index := i }

/-- Twelve admissible rows whose first NIC cell is malformed: detection on
the full buffer raises inside the inner `try`. -/
def c7rows : List Row :=
  [c7row 0 0 none, c7row 1 10 (some 5), c7row 2 20 (some 5),
   c7row 3 30 (some 5), c7row 4 40 (some 5), c7row 5 50 (some 5),
   c7row 6 60 (some 5), c7row 7 70 (some 5), c7row 8 80 (some 5),
   c7row 9 90 (some 5), c7row 10 100 (some 5), c7row 11 110 (some 5)]

/-- Dictionary holding the full malformed-NIC buffer for `"B"`. -/
def c7fd : FlightDict := updateDict emptyDict "B" c7rows

/-- An admissible row of `"C"` with a good timestamp. -/
def c8r1 : Row :=
  { hex := "C", alt_baro := .num 20000, timestamp_u := some 0, nic := some 5,
    lat := 0, lon := 0, index := 0 }

/-- An admissible row of `"C"` whose timestamp is unparseable: the
subtraction in the gap check raises. -/
def c8r2 : Row :=
  { hex := "C", alt_baro := .num 20000, timestamp_u := none, nic := some 5,
    lat := 0, lon := 0, index := 1 }

/-- Dictionary holding the buffer `[c8r1]` for `"C"`. -/
def c8fd : FlightDict := updateDict emptyDict "C" [c8r1]

/-! Helper lemmas about the embedded operations. -/

theorem updateDict_self (fd : FlightDict) (h : String) (b : List Row) :
    updateDict fd h b h = some b := by
  simp [updateDict]

theorem updateDict_ne (fd : FlightDict) (h : String) (b : List Row) {k : String}
    (hk : k ≠ h) : updateDict fd h b k = fd k := by
  simp [updateDict, hk]

theorem sumOpt_map_some (l : List ℚ) : sumOpt (l.map some) = some l.sum := by
  induction l with
  | nil => rfl
  | cons a t ih => simp [sumOpt, ih]

theorem sumOpt_ne_none {l : List (Option ℚ)} {s : ℚ} (h : sumOpt l = some s) :
    ∀ x ∈ l, x ≠ none := by
  induction l generalizing s with
  | nil => simp
  | cons a t ih =>
    cases a with
    | none => simp [sumOpt] at h
    | some v =>
      intro x hx
      rcases List.mem_cons.1 hx with rfl | hx'
      · simp
      · rcases ht : sumOpt t with _ | s'
        · simp [sumOpt, ht] at h
        · exact ih ht x hx'

theorem exists_map_some {l : List (Option ℚ)} (h : ∀ x ∈ l, x ≠ none) :
    ∃ ns : List ℚ, l = ns.map some := by
  induction l with
  | nil => exact ⟨[], rfl⟩
  | cons a t ih =>
    obtain ⟨ns, hns⟩ := ih fun x hx => h x (List.mem_cons_of_mem _ hx)
    cases a with
    | none => exact absurd rfl (h none (List.mem_cons_self _ _))
    | some v => exact ⟨v :: ns, by simp [hns]⟩

theorem detect_some_ne_none {l : List (Option ℚ)} {b : Bool}
    (h : detect_loss_or_recovery l = some b) : ∀ x ∈ l, x ≠ none := by
  have hsplit := List.take_append_drop (BUFFER_SIZE / 2) l
  simp only [detect_loss_or_recovery] at h
  rcases h1 : sumOpt (l.take (BUFFER_SIZE / 2)) with _ | ps <;>
    rcases h2 : sumOpt (l.drop (BUFFER_SIZE / 2)) with _ | ls <;>
      rw [h1, h2] at h <;> try simp at h
  intro x hx
  rw [← hsplit] at hx
  rcases List.mem_append.1 hx with hx' | hx'
  · exact sumOpt_ne_none h1 x hx'
  · exact sumOpt_ne_none h2 x hx'

theorem detect_map_some_true (ns : List ℚ) (h : ns.length = BUFFER_SIZE) :
    detect_loss_or_recovery (ns.map some) = some true ↔
      specRecovery ns ∨ specLoss ns := by
  have htake : (ns.map some).take (BUFFER_SIZE / 2) =
      (ns.take (BUFFER_SIZE / 2)).map some := (List.map_take some ns _).symm
  have hdrop : (ns.map some).drop (BUFFER_SIZE / 2) =
      (ns.drop (BUFFER_SIZE / 2)).map some := (List.map_drop some ns _).symm
  simp only [detect_loss_or_recovery, htake, hdrop, sumOpt_map_some]
  norm_num [specRecovery, specLoss, specPriorMean, specLaterMean,
    GPS_THRESHOLD_LOW, GPS_THRESHOLD_HIGH, BUFFER_SIZE, List.length_take,
    List.length_drop, h, decide_eq_true_eq]

theorem nics_length (buf : List Row) :
    (get_nics_from_buffer buf).length = buf.length := by
  simp [get_nics_from_buffer]

theorem checkCrossing_cases (fd : FlightDict) (hx : String) :
    checkCrossing fd hx = (fd, []) ∨
      ∃ buf, fd hx = some buf ∧ buf.length = BUFFER_SIZE ∧
        detect_loss_or_recovery (get_nics_from_buffer buf) = some true ∧
        checkCrossing fd hx = (updateDict fd hx [], [build_zero_crossing buf]) := by
  rcases hfd : fd hx with _ | buf
  · left; simp [checkCrossing, getBuf, hfd, BUFFER_SIZE]
  · by_cases hlen : buf.length = BUFFER_SIZE
    · rcases hdet : detect_loss_or_recovery (get_nics_from_buffer buf) with _ | b
      · left; simp [checkCrossing, getBuf, hfd, hlen, hdet]
      · cases b
        · left; simp [checkCrossing, getBuf, hfd, hlen, hdet]
        · refine .inr ⟨buf, ?_, hlen, hdet, ?_⟩
          · rfl
          · simp [checkCrossing, getBuf, hfd, hlen, hdet]
    · left; simp [checkCrossing, getBuf, hfd, hlen]

/-- C1: when the buffer of an identifier has reached exactly `BUFFER_SIZE`
elements, the crossing check emits an event if and only if, splitting the
integrity values of the buffer by arrival order into `prior = elements[0:N/2]`
and `later = elements[N/2:N]`, either prior mean < GPS_THRESHOLD_LOW and
later mean ≥ GPS_THRESHOLD_HIGH (Recovery), or prior mean ≥
GPS_THRESHOLD_HIGH and later mean < GPS_THRESHOLD_LOW (Loss); in every
other situation (buffer not full, malformed values, or neither condition)
no event is emitted. -/
theorem claim_C1 (fd : FlightDict) (hx : String) :
    (checkCrossing fd hx).2 ≠ [] ↔
      ∃ buf ns, fd hx = some buf ∧ buf.length = BUFFER_SIZE ∧
        get_nics_from_buffer buf = ns.map some ∧
        (specRecovery ns ∨ specLoss ns) := by
  constructor
  · intro hne
    rcases checkCrossing_cases fd hx with hc | ⟨buf, hfd, hlen, hdet, _⟩
    · exact absurd (congrArg Prod.snd hc) hne
    · obtain ⟨ns, hns⟩ := exists_map_some (detect_some_ne_none hdet)
      have hnlen : ns.length = BUFFER_SIZE := by
        have h1 := nics_length buf
        rw [hns, List.length_map] at h1
        rw [h1, hlen]
      refine ⟨buf, ns, hfd, hlen, hns, ?_⟩
      rw [hns] at hdet
      exact (detect_map_some_true ns hnlen).1 hdet
  · rintro ⟨buf, ns, hfd, hlen, hns, hcond⟩
    have hnlen : ns.length = BUFFER_SIZE := by
      have h1 := nics_length buf
      rw [hns, List.length_map] at h1
      rw [h1, hlen]
    have hdet : detect_loss_or_recovery (get_nics_from_buffer buf) = some true := by
      rw [hns]
      exact (detect_map_some_true ns hnlen).2 hcond
    simp [checkCrossing, getBuf, hfd, hlen, hdet]

/-- C2: every emitted crossing event is built from the record at 0-based
index `BUFFER_SIZE/2` of the triggering (full) buffer and carries the own
identifier, altitude, row index, latitude and longitude of that record,
together with the full ordered list of integrity values of the buffer. -/
theorem claim_C2 (fd : FlightDict) (hx : String) (ev : ZeroCrossing)
    (hev : ev ∈ (checkCrossing fd hx).2) :
    ∃ (buf : List Row) (h6 : BUFFER_SIZE / 2 < buf.length),
      fd hx = some buf ∧ buf.length = BUFFER_SIZE ∧
        ev.hex_code = (buf.get ⟨BUFFER_SIZE / 2, h6⟩).hex ∧
        ev.alt_baro = altToInt (buf.get ⟨BUFFER_SIZE / 2, h6⟩).alt_baro ∧
        ev.row_index = (buf.get ⟨BUFFER_SIZE / 2, h6⟩).index ∧
        ev.lat = (buf.get ⟨BUFFER_SIZE / 2, h6⟩).lat ∧
        ev.lon = (buf.get ⟨BUFFER_SIZE / 2, h6⟩).lon ∧
        ev.nics = get_nics_from_buffer buf := by
  rcases checkCrossing_cases fd hx with hc | ⟨buf, hfd, hlen, hdet, heq⟩
  · rw [hc] at hev; simp at hev
  · rw [heq] at hev
    simp only [List.mem_singleton] at hev
    subst hev
    have h6 : BUFFER_SIZE / 2 < buf.length := by rw [hlen]; decide
    refine ⟨buf, h6, hfd, hlen, ?_, ?_, ?_, ?_, ?_, ?_⟩ <;>
      simp [build_zero_crossing, List.getD_eq_getElem _ _ h6,
        List.getElem?_eq_getElem h6, List.get_eq_getElem]

/-- C2 witness: the Recovery event of the concrete full buffer `wrows` is
built from its midpoint record. -/
theorem claim_C2_witness :
    ∃ (buf : List Row) (h6 : BUFFER_SIZE / 2 < buf.length),
      wfdFull "A" = some buf ∧ buf.length = BUFFER_SIZE ∧
        wev.hex_code = (buf.get ⟨BUFFER_SIZE / 2, h6⟩).hex ∧
        wev.alt_baro = altToInt (buf.get ⟨BUFFER_SIZE / 2, h6⟩).alt_baro ∧
        wev.row_index = (buf.get ⟨BUFFER_SIZE / 2, h6⟩).index ∧
        wev.lat = (buf.get ⟨BUFFER_SIZE / 2, h6⟩).lat ∧
        wev.lon = (buf.get ⟨BUFFER_SIZE / 2, h6⟩).lon ∧
        wev.nics = get_nics_from_buffer buf :=
  claim_C2 wfdFull "A" wev (by
    norm_num [checkCrossing, getBuf, updateDict, emptyDict, wfdFull, wrows,
      wrow, wev, detect_loss_or_recovery, sumOpt, get_nics_from_buffer,
      build_zero_crossing, dequeAppend, dRow, BUFFER_SIZE, GPS_THRESHOLD_LOW,
      GPS_THRESHOLD_HIGH, altToInt])

/-- C6: immediately after any emitted crossing for an identifier, the
buffer of that identifier is empty. -/
theorem claim_C6 (fd : FlightDict) (r : Row) (ev : ZeroCrossing)
    (hev : ev ∈ (stepRow fd r).2) : (stepRow fd r).1 r.hex = some [] := by
  cases hs : shouldSkip r.alt_baro with
  | true => simp [stepRow, hs] at hev
  | false =>
    cases hins : (insert_record fd r).2 with
    | false => simp [stepRow, hs, hins] at hev
    | true =>
      have hstep : stepRow fd r = checkCrossing (insert_record fd r).1 r.hex := by
        simp [stepRow, hs, hins]
      rw [hstep] at hev ⊢
      rcases checkCrossing_cases (insert_record fd r).1 r.hex with
        hc | ⟨buf, hfd, hlen, hdet, heq⟩
      · rw [hc] at hev; simp at hev
      · rw [heq]; simp [updateDict]

/-- C6 witness: after the concrete Recovery crossing on the twelfth row of
`wrows`, the buffer of aircraft `"A"` is empty. -/
theorem claim_C6_witness :
    (stepRow wfd11 (wrow 11 110 9)).1 (wrow 11 110 9).hex = some [] :=
  claim_C6 wfd11 (wrow 11 110 9) wev (by
    norm_num [stepRow, insert_record, checkCrossing, validate_sample_interval,
      getBuf, updateDict, emptyDict, wfd11, wbuf11, wrow, wev, shouldSkip,
      altIsDigit, altToInt, detect_loss_or_recovery, sumOpt,
      get_nics_from_buffer, build_zero_crossing, dequeAppend, dRow,
      BUFFER_SIZE, MAX_SAMPLE_DELTA_SECONDS, MIN_ALT_FEET, GPS_THRESHOLD_LOW,
      GPS_THRESHOLD_HIGH])

/-- C10: processing a single input row emits at most one crossing event. -/
theorem claim_C10 (fd : FlightDict) (r : Row) : (stepRow fd r).2.length ≤ 1 := by
  cases hs : shouldSkip r.alt_baro with
  | true => simp [stepRow, hs]
  | false =>
    cases hins : (insert_record fd r).2 with
    | false => simp [stepRow, hs, hins]
    | true =>
      have hstep : stepRow fd r = checkCrossing (insert_record fd r).1 r.hex := by
        simp [stepRow, hs, hins]
      rw [hstep]
      rcases checkCrossing_cases (insert_record fd r).1 r.hex with
        hc | ⟨buf, _, _, _, heq⟩
      · simp [hc]
      · simp [heq]

theorem bufPred_update {P : List Row → Prop} {fd : FlightDict}
    (h : bufPred P fd) {hx : String} {b : List Row} (hb : P b) :
    bufPred P (updateDict fd hx b) := by
  intro k buf hk
  by_cases hkx : k = hx
  · subst hkx
    rw [updateDict_self] at hk
    cases hk
    exact hb
  · rw [updateDict_ne _ _ _ hkx] at hk
    exact h k buf hk

theorem bufPred_getBuf {P : List Row → Prop} {fd : FlightDict}
    (h : bufPred P fd) (hnil : P []) (hx : String) : P (getBuf fd hx) := by
  rcases hfd : fd hx with _ | buf
  · simpa [getBuf, hfd] using hnil
  · simpa [getBuf, hfd] using h hx buf hfd

theorem validate_empty (ts : Option ℚ) : validate_sample_interval [] ts = some true :=
  rfl

theorem insert_record_preserves (P : List Row → Prop) (hnil : P [])
    (fd : FlightDict) (r : Row)
    (happ : ∀ buf, validate_sample_interval buf r.timestamp_u = some true →
      P buf → P (dequeAppend buf r))
    (hfd : bufPred P fd) :
    bufPred P (insert_record fd r).1 := by
  simp only [insert_record]
  have h1 : bufPred P (if (fd r.hex).isSome then fd else updateDict fd r.hex []) := by
    split
    · exact hfd
    · exact bufPred_update hfd hnil
  set fd1 := if (fd r.hex).isSome then fd else updateDict fd r.hex [] with hfd1
  cases hval : validate_sample_interval (getBuf fd1 r.hex) r.timestamp_u with
  | none => exact h1
  | some ok =>
    have h2 : bufPred P (if ok then fd1 else updateDict fd1 r.hex []) := by
      split
      · exact h1
      · exact bufPred_update h1 hnil
    have hval2 : validate_sample_interval
        (getBuf (if ok then fd1 else updateDict fd1 r.hex []) r.hex)
        r.timestamp_u = some true := by
      cases ok with
      | true => simpa using hval
      | false =>
        have hb : getBuf (updateDict fd1 r.hex []) r.hex = [] := by
          simp [getBuf, updateDict]
        simp [hb, validate_empty]
    exact bufPred_update h2 (happ _ hval2 (bufPred_getBuf h2 hnil _))

theorem stepRow_preserves (P : List Row → Prop) (hnil : P [])
    (happ : ∀ buf r, shouldSkip r.alt_baro = false →
      validate_sample_interval buf r.timestamp_u = some true →
      P buf → P (dequeAppend buf r))
    (fd : FlightDict) (r : Row) (hfd : bufPred P fd) :
    bufPred P (stepRow fd r).1 ∧
      ∀ ev ∈ (stepRow fd r).2, ∃ buf, P buf ∧ buf.length = BUFFER_SIZE ∧
        ev = build_zero_crossing buf := by
  cases hs : shouldSkip r.alt_baro with
  | true =>
    refine ⟨by simpa [stepRow, hs] using hfd, ?_⟩
    simp [stepRow, hs]
  | false =>
    have hins : bufPred P (insert_record fd r).1 :=
      insert_record_preserves P hnil fd r (fun buf hv hp => happ buf r hs hv hp) hfd
    cases hok : (insert_record fd r).2 with
    | false =>
      have hrw : stepRow fd r = ((insert_record fd r).1, []) := by
        simp [stepRow, hs, hok]
      rw [hrw]
      exact ⟨hins, by simp⟩
    | true =>
      have hrw : stepRow fd r = checkCrossing (insert_record fd r).1 r.hex := by
        simp [stepRow, hs, hok]
      rw [hrw]
      rcases checkCrossing_cases (insert_record fd r).1 r.hex with
        hc | ⟨buf, hbfd, hblen, hdet, heq⟩
      · rw [hc]
        exact ⟨hins, by simp⟩
      · rw [heq]
        refine ⟨bufPred_update hins hnil, ?_⟩
        intro ev hev
        simp only [List.mem_singleton] at hev
        exact ⟨buf, hins r.hex buf hbfd, hblen, hev⟩

theorem processRows_inv (P : List Row → Prop) (hnil : P [])
    (happ : ∀ buf r, shouldSkip r.alt_baro = false →
      validate_sample_interval buf r.timestamp_u = some true →
      P buf → P (dequeAppend buf r)) :
    ∀ (rows : List Row) (fd : FlightDict) (acc : List ZeroCrossing),
      bufPred P fd →
      (∀ ev ∈ acc, ∃ buf, P buf ∧ buf.length = BUFFER_SIZE ∧
        ev = build_zero_crossing buf) →
      bufPred P (processRows rows fd acc).1 ∧
        ∀ ev ∈ (processRows rows fd acc).2, ∃ buf, P buf ∧
          buf.length = BUFFER_SIZE ∧ ev = build_zero_crossing buf := by
  intro rows
  induction rows with
  | nil =>
    intro fd acc h1 h2
    exact ⟨h1, h2⟩
  | cons r rs ih =>
    intro fd acc h1 h2
    have hstep := stepRow_preserves P hnil happ fd r h1
    simp only [processRows]
    refine ih (stepRow fd r).1 (acc ++ (stepRow fd r).2) hstep.1 ?_
    intro ev hev
    rcases List.mem_append.1 hev with h | h
    · exact h2 ev h
    · exact hstep.2 ev h

theorem chain'_dequeAppend {buf : List Row} {r : Row}
    (hchain : List.Chain' contiguous buf)
    (hlast : ∀ last, buf.getLast? = some last → contiguous last r) :
    List.Chain' contiguous (dequeAppend buf r) := by
  unfold dequeAppend
  split
  · next hfull =>
    rcases buf with _ | ⟨a, t⟩
    · simp [BUFFER_SIZE] at hfull
    rcases t with _ | ⟨b, t'⟩
    · simp [BUFFER_SIZE] at hfull
    refine List.Chain'.append hchain.tail (List.chain'_singleton r) ?_
    intro x hx y hy
    simp only [List.head?_cons, Option.mem_def, Option.some.injEq] at hy
    subst hy
    simp only [List.tail_cons, Option.mem_def] at hx
    exact hlast x (by rw [List.getLast?_cons_cons]; exact hx)
  · refine List.Chain'.append hchain (List.chain'_singleton r) ?_
    intro x hx y hy
    simp only [List.head?_cons, Option.mem_def, Option.some.injEq] at hy
    subst hy
    exact hlast x (by simpa [Option.mem_def] using hx)

theorem validate_true_contiguous {buf : List Row} {r : Row}
    (hval : validate_sample_interval buf r.timestamp_u = some true) :
    ∀ last, buf.getLast? = some last → contiguous last r := by
  intro last hlast
  simp only [validate_sample_interval, hlast] at hval
  rcases hc : r.timestamp_u with _ | c <;> rcases hl : last.timestamp_u with _ | l <;>
    rw [hc, hl] at hval <;> simp at hval
  exact ⟨l, c, hl, hc, hval⟩

/-- C3: at every point of processing, adjacent samples of every live
buffer are within (strictly less than) `MAX_SAMPLE_DELTA_SECONDS` of each
other, and every emitted crossing is built from a buffer satisfying that
contiguity, so no crossing ever spans a timestamp gap of
`MAX_SAMPLE_DELTA_SECONDS` or more. -/
theorem claim_C3 (rows : List Row) :
    (∀ hx buf, finalDict rows hx = some buf → List.Chain' contiguous buf) ∧
      ∀ ev ∈ get_zero_crossings rows, ∃ buf, List.Chain' contiguous buf ∧
        buf.length = BUFFER_SIZE ∧ ev = build_zero_crossing buf := by
  have happ : ∀ buf r, shouldSkip r.alt_baro = false →
      validate_sample_interval buf r.timestamp_u = some true →
      List.Chain' contiguous buf → List.Chain' contiguous (dequeAppend buf r) := by
    intro buf r _ hval hchain
    exact chain'_dequeAppend hchain (validate_true_contiguous hval)
  have h := processRows_inv (List.Chain' contiguous) List.chain'_nil happ rows
    emptyDict [] (by intro hx buf hb; simp [emptyDict] at hb) (by simp)
  exact ⟨fun hx buf hb => h.1 hx buf hb, h.2⟩

/-- C3 witness: the concrete Recovery event of `wrows` comes from a
temporally contiguous full buffer. -/
theorem claim_C3_witness :
    ∃ buf, List.Chain' contiguous buf ∧ buf.length = BUFFER_SIZE ∧
      wev = build_zero_crossing buf :=
  (claim_C3 wrows).2 wev (by
    norm_num [get_zero_crossings, processRows, stepRow, insert_record,
      checkCrossing, validate_sample_interval, detect_loss_or_recovery,
      sumOpt, get_nics_from_buffer, build_zero_crossing, dequeAppend, getBuf,
      updateDict, emptyDict, shouldSkip, altIsDigit, altToInt, wrow, wrows,
      wev, dRow, BUFFER_SIZE, MAX_SAMPLE_DELTA_SECONDS, MIN_ALT_FEET,
      GPS_THRESHOLD_LOW, GPS_THRESHOLD_HIGH])

theorem shouldSkip_false_min {a : AltVal} (h : shouldSkip a = false) :
    MIN_ALT_FEET ≤ altToInt a := by
  cases a with
  | ground => simp [shouldSkip, altIsDigit] at h
  | num n =>
    simp [shouldSkip, altIsDigit, altToInt, MIN_ALT_FEET] at h ⊢
    omega

/-- C5: a record whose altitude is the ground sentinel or numerically
below `MIN_ALT_FEET` never enters any buffer — every live buffer holds
only admissible records — and never contributes to a crossing: every
emitted event comes from a buffer of admissible records, and in particular
its representative altitude is at least `MIN_ALT_FEET`. -/
theorem claim_C5 (rows : List Row) :
    (∀ hx buf, finalDict rows hx = some buf →
      ∀ x ∈ buf, shouldSkip x.alt_baro = false) ∧
      ∀ ev ∈ get_zero_crossings rows,
        (∃ buf, (∀ x ∈ buf, shouldSkip x.alt_baro = false) ∧
          buf.length = BUFFER_SIZE ∧ ev = build_zero_crossing buf) ∧
        MIN_ALT_FEET ≤ ev.alt_baro := by
  have happ : ∀ buf r, shouldSkip r.alt_baro = false →
      validate_sample_interval buf r.timestamp_u = some true →
      (∀ x ∈ buf, shouldSkip x.alt_baro = false) →
      ∀ x ∈ dequeAppend buf r, shouldSkip x.alt_baro = false := by
    intro buf r hs _ hP x hx
    unfold dequeAppend at hx
    split at hx
    · rcases List.mem_append.1 hx with h | h
      · exact hP x (List.tail_subset _ h)
      · simp only [List.mem_singleton] at h
        subst h
        exact hs
    · rcases List.mem_append.1 hx with h | h
      · exact hP x h
      · simp only [List.mem_singleton] at h
        subst h
        exact hs
  have h := processRows_inv (fun buf => ∀ x ∈ buf, shouldSkip x.alt_baro = false)
    (by simp) happ rows emptyDict []
    (by intro hx buf hb; simp [emptyDict] at hb) (by simp)
  refine ⟨fun hx buf hb => h.1 hx buf hb, ?_⟩
  intro ev hev
  obtain ⟨buf, hP, hlen, hevq⟩ := h.2 ev hev
  refine ⟨⟨buf, hP, hlen, hevq⟩, ?_⟩
  have h6 : BUFFER_SIZE / 2 < buf.length := by rw [hlen]; decide
  rw [hevq]
  show MIN_ALT_FEET ≤ altToInt (buf.getD (BUFFER_SIZE / 2) dRow).alt_baro
  rw [List.getD_eq_getElem _ _ h6]
  exact shouldSkip_false_min (hP _ (List.getElem_mem h6))

theorem insert_record_eq_of_some {fd : FlightDict} {r : Row}
    (hsome : (fd r.hex).isSome) {ok : Bool}
    (hval : validate_sample_interval (getBuf fd r.hex) r.timestamp_u = some ok) :
    insert_record fd r =
      (updateDict (if ok then fd else updateDict fd r.hex []) r.hex
        (dequeAppend (getBuf (if ok then fd else updateDict fd r.hex []) r.hex) r),
        true) := by
  simp only [insert_record, hsome, if_true]
  rw [hval]

theorem insert_record_ne (fd : FlightDict) (r : Row) {hx : String}
    (hne : hx ≠ r.hex) : (insert_record fd r).1 hx = fd hx := by
  simp only [insert_record]
  set fd1 := if (fd r.hex).isSome then fd else updateDict fd r.hex [] with hfd1
  have h1 : fd1 hx = fd hx := by
    rw [hfd1]
    split
    · rfl
    · exact updateDict_ne _ _ _ hne
  cases hval : validate_sample_interval (getBuf fd1 r.hex) r.timestamp_u with
  | none => exact h1
  | some ok =>
    show (updateDict (if ok then fd1 else updateDict fd1 r.hex []) r.hex
      (dequeAppend (getBuf (if ok then fd1 else updateDict fd1 r.hex []) r.hex) r))
        hx = fd hx
    rw [updateDict_ne _ _ _ hne]
    split
    · exact h1
    · exact (updateDict_ne _ _ _ hne).trans h1

/-- C4 counterexample: the claim says a non-empty buffer is discarded
exactly when the elapsed time *exceeds* `MAX_SAMPLE_DELTA_SECONDS`, and
otherwise the existing contents are kept and the record appended.  Both
halves fail on the code: (i) at an elapsed time of exactly 120 s — which
does not exceed 120 — the buffer `[c4r1]` is discarded and only `c4r2`
survives; (ii) on the 13th of thirteen 10-s-apart records the buffer is at
capacity and the oldest record `wrow 0 0 5` is evicted rather than kept. -/
theorem claim_C4_counterexample :
    c4r1.timestamp_u = some 0 ∧ c4r2.timestamp_u = some 120 ∧
    ¬ MAX_SAMPLE_DELTA_SECONDS < (120 : ℚ) - 0 ∧
    finalDict [c4r1, c4r2] "A" = some [c4r2] ∧
    finalDict c4slide "A" =
      some [wrow 1 10 5, wrow 2 20 5, wrow 3 30 5, wrow 4 40 5, wrow 5 50 5,
        wrow 6 60 5, wrow 7 70 5, wrow 8 80 5, wrow 9 90 5, wrow 10 100 5,
        wrow 11 110 5, wrow 12 120 5] := by
  refine ⟨rfl, rfl, by norm_num [MAX_SAMPLE_DELTA_SECONDS], ?_, ?_⟩ <;>
    norm_num [finalDict, processRows, stepRow, insert_record, checkCrossing,
      validate_sample_interval, detect_loss_or_recovery, sumOpt,
      get_nics_from_buffer, build_zero_crossing, dequeAppend, getBuf,
      updateDict, emptyDict, shouldSkip, altIsDigit, altToInt, wrow, c4r1,
      c4r2, c4slide, dRow, BUFFER_SIZE, MAX_SAMPLE_DELTA_SECONDS,
      MIN_ALT_FEET, GPS_THRESHOLD_LOW, GPS_THRESHOLD_HIGH]

/-- C4 (amended): for a record arriving at a non-empty buffer whose last
sample and the incoming record both carry defined timestamps, the
contents of the buffer are discarded (and replaced by a fresh buffer holding just the
new record) exactly when the elapsed time is *at least*
`MAX_SAMPLE_DELTA_SECONDS`; when the elapsed time is strictly smaller the
record is appended through the bounded deque (which evicts the oldest
element only when the buffer is at capacity). -/
theorem claim_C4 (fd : FlightDict) (r : Row) (buf : List Row) (last : Row)
    (l c : ℚ) (hbuf : fd r.hex = some buf) (hlast : buf.getLast? = some last)
    (hl : last.timestamp_u = some l) (hc : r.timestamp_u = some c) :
    (MAX_SAMPLE_DELTA_SECONDS ≤ c - l →
      (insert_record fd r).1 r.hex = some [r] ∧ (insert_record fd r).2 = true) ∧
    (c - l < MAX_SAMPLE_DELTA_SECONDS →
      (insert_record fd r).1 r.hex = some (dequeAppend buf r) ∧
        (insert_record fd r).2 = true) := by
  have hsome : (fd r.hex).isSome := by rw [hbuf]; rfl
  have hgb : getBuf fd r.hex = buf := by simp [getBuf, hbuf]
  have hval : validate_sample_interval (getBuf fd r.hex) r.timestamp_u =
      some (decide (c - l < MAX_SAMPLE_DELTA_SECONDS)) := by
    rw [hgb]
    simp [validate_sample_interval, hlast, hl, hc]
  constructor
  · intro hge
    have hdec : decide (c - l < MAX_SAMPLE_DELTA_SECONDS) = false := by
      simp [not_lt.2 hge]
    rw [hdec] at hval
    rw [insert_record_eq_of_some hsome hval]
    simp [updateDict, getBuf, dequeAppend, BUFFER_SIZE]
  · intro hlt
    have hdec : decide (c - l < MAX_SAMPLE_DELTA_SECONDS) = true := by
      simp [hlt]
    rw [hdec] at hval
    rw [insert_record_eq_of_some hsome hval]
    simp [updateDict, hgb]

/-- C4 witness: at an elapsed time of exactly `MAX_SAMPLE_DELTA_SECONDS`
the amended discard branch applies to the concrete buffer `[c4r1]`. -/
theorem claim_C4_witness :
    (insert_record c4fd c4r2).1 c4r2.hex = some [c4r2] ∧
      (insert_record c4fd c4r2).2 = true :=
  (claim_C4 c4fd c4r2 [c4r1] c4r1 0 120 rfl rfl rfl rfl).1
    (by norm_num [MAX_SAMPLE_DELTA_SECONDS])

/-- C7 counterexample: processing twelve admissible rows of `"B"` whose
first NIC cell is malformed leaves a full buffer on which crossing
resolution raises (`detect_loss_or_recovery` returns `none`); the run
emits nothing and continues, but contrary to the claim the buffer is not
reset: it still holds all twelve records. -/
theorem claim_C7_counterexample :
    get_zero_crossings c7rows = [] ∧
    finalDict c7rows "B" = some c7rows ∧
    c7rows.length = BUFFER_SIZE ∧
    detect_loss_or_recovery (get_nics_from_buffer c7rows) = none := by
  refine ⟨?_, ?_, by norm_num [c7rows, c7row, BUFFER_SIZE], ?_⟩ <;>
    norm_num [get_zero_crossings, finalDict, processRows, stepRow,
      insert_record, checkCrossing, validate_sample_interval,
      detect_loss_or_recovery, sumOpt, get_nics_from_buffer,
      build_zero_crossing, dequeAppend, getBuf, updateDict, emptyDict,
      shouldSkip, altIsDigit, altToInt, c7rows, c7row, dRow, BUFFER_SIZE,
      MAX_SAMPLE_DELTA_SECONDS, MIN_ALT_FEET, GPS_THRESHOLD_LOW,
      GPS_THRESHOLD_HIGH]

/-- C7 (amended): when resolving a crossing on a full buffer fails (the
inner handler catches the exception), the crossing is skipped and the run
continues, but the buffer of the identifier is NOT reset to empty — the
dictionary is returned untouched, retaining the full buffer. -/
theorem claim_C7 (fd : FlightDict) (hx : String)
    (hlen : (getBuf fd hx).length = BUFFER_SIZE)
    (hfail : detect_loss_or_recovery (get_nics_from_buffer (getBuf fd hx)) = none) :
    checkCrossing fd hx = (fd, []) := by
  simp [checkCrossing, hlen, hfail]

/-- C7 witness: the crossing-resolution failure on the concrete
malformed-NIC buffer of `"B"` leaves the dictionary untouched. -/
theorem claim_C7_witness : checkCrossing c7fd "B" = (c7fd, []) :=
  claim_C7 c7fd "B"
    (by norm_num [getBuf, c7fd, updateDict, emptyDict, c7rows, c7row,
      BUFFER_SIZE])
    (by norm_num [getBuf, c7fd, updateDict, emptyDict, c7rows, c7row,
      detect_loss_or_recovery, get_nics_from_buffer, sumOpt, BUFFER_SIZE])

/-- C8: a record on which per-row processing fails never aborts the run —
(i) a row only ever touches the buffer of its own identifier, (ii) a row whose
gap check raises is skipped entirely, leaving the whole dictionary
unchanged and emitting nothing, and (iii) the loop always continues with
the remaining rows from the resulting state. -/
theorem claim_C8 (fd : FlightDict) (r : Row) :
    (∀ hx, hx ≠ r.hex → (stepRow fd r).1 hx = fd hx) ∧
    (validate_sample_interval (getBuf fd r.hex) r.timestamp_u = none →
      stepRow fd r = (fd, [])) ∧
    ∀ (rs : List Row) (acc : List ZeroCrossing),
      processRows (r :: rs) fd acc =
        processRows rs (stepRow fd r).1 (acc ++ (stepRow fd r).2) := by
  refine ⟨?_, ?_, fun rs acc => rfl⟩
  · intro hx hne
    cases hs : shouldSkip r.alt_baro with
    | true => simp [stepRow, hs]
    | false =>
      have hins : (insert_record fd r).1 hx = fd hx := insert_record_ne fd r hne
      cases hok : (insert_record fd r).2 with
      | false =>
        have hrw : stepRow fd r = ((insert_record fd r).1, []) := by
          simp [stepRow, hs, hok]
        rw [hrw]
        exact hins
      | true =>
        have hrw : stepRow fd r = checkCrossing (insert_record fd r).1 r.hex := by
          simp [stepRow, hs, hok]
        rw [hrw]
        rcases checkCrossing_cases (insert_record fd r).1 r.hex with
          hc | ⟨buf, _, _, _, heq⟩
        · rw [hc]
          exact hins
        · rw [heq]
          exact (updateDict_ne _ _ _ hne).trans hins
  · intro hv
    have hsome : (fd r.hex).isSome := by
      rcases hfd : fd r.hex with _ | b
      · rw [show getBuf fd r.hex = [] by simp [getBuf, hfd], validate_empty]
          at hv
        cases hv
      · rfl
    have hfd1 : (if (fd r.hex).isSome then fd else updateDict fd r.hex []) = fd := by
      simp [hsome]
    cases hs : shouldSkip r.alt_baro with
    | true => simp [stepRow, hs]
    | false =>
      have hins : insert_record fd r = (fd, false) := by
        simp only [insert_record, hfd1]
        rw [hv]
      simp [stepRow, hs, hins]

/-- C8 witness: the concrete row `c8r2`, whose timestamp subtraction
raises against the buffer `[c8r1]`, is skipped with the dictionary left
exactly as it was. -/
theorem claim_C8_witness : stepRow c8fd c8r2 = (c8fd, []) :=
  (claim_C8 c8fd c8r2).2.1
    (by norm_num [getBuf, c8fd, updateDict, emptyDict, c8r1, c8r2,
      validate_sample_interval])

/-- C9: the geofence radius converts feet to metres and computes
`sqrt(2 * R_earth * h + h^2)` with `R_earth = 6371000`; it is monotone in
the altitude on nonnegative altitudes and vanishes at altitude 0. -/
theorem claim_C9 :
    (∀ height : ℝ, horizontal_range height =
      Real.sqrt (2 * 6371000 * (height * 0.3048) + (height * 0.3048) ^ 2)) ∧
    (∀ a b : ℝ, 0 ≤ a → a ≤ b → horizontal_range a ≤ horizontal_range b) ∧
    horizontal_range 0 = 0 := by
  refine ⟨fun height => rfl, ?_, ?_⟩
  · intro a b ha hab
    have hF : (0:ℝ) ≤ FEET_TO_METERS := by norm_num [FEET_TO_METERS]
    have h1 : a * FEET_TO_METERS ≤ b * FEET_TO_METERS :=
      mul_le_mul_of_nonneg_right hab hF
    have h0 : 0 ≤ a * FEET_TO_METERS := mul_nonneg ha hF
    have hR : (0:ℝ) < RADIUS_EARTH := by norm_num [RADIUS_EARTH]
    apply Real.sqrt_le_sqrt
    have key : 0 ≤ (b * FEET_TO_METERS - a * FEET_TO_METERS) *
        (b * FEET_TO_METERS + a * FEET_TO_METERS) :=
      mul_nonneg (by linarith) (by linarith)
    nlinarith [key, hR, h1]
  · show Real.sqrt _ = 0
    norm_num [RADIUS_EARTH, FEET_TO_METERS]

/-- C9 witness: the radius at altitude 0 is no larger than at 100 ft. -/
theorem claim_C9_witness : horizontal_range 0 ≤ horizontal_range 100 :=
  claim_C9.2.1 0 100 le_rfl (by norm_num)

/-- C5 witness: the representative altitude of the concrete Recovery
event of `wrows` is at least `MIN_ALT_FEET`. -/
theorem claim_C5_witness : MIN_ALT_FEET ≤ wev.alt_baro :=
  ((claim_C5 wrows).2 wev (by
    norm_num [get_zero_crossings, processRows, stepRow, insert_record,
      checkCrossing, validate_sample_interval, detect_loss_or_recovery,
      sumOpt, get_nics_from_buffer, build_zero_crossing, dequeAppend, getBuf,
      updateDict, emptyDict, shouldSkip, altIsDigit, altToInt, wrow, wrows,
      wev, dRow, BUFFER_SIZE, MAX_SAMPLE_DELTA_SECONDS, MIN_ALT_FEET,
      GPS_THRESHOLD_LOW, GPS_THRESHOLD_HIGH])).2

end ProcessAis
